import Mathlib

/-!
# Verification of the PlayMetrics export script

Shallow embedding of `src/playmetrics_export.py`.  Network responses and user
input are modelled as oracles packed into a `World` value; each authentication
function returns its result together with the ordered list of observable
effects (network calls, saves) it performs, mirroring the Python control flow
statement by statement.  Print statements have no observable effect and are
dropped.  Unhandled Python exceptions (e.g. a timeout inside an auth call,
or indexing a missing key) abort the whole program; the embedding covers the
executions in which the modelled oracles return responses, which is where all
of the branching logic under verification lives.
-/

/-- JSON values as returned by `resp.json()` and as stored in the auth file.
Python `None` is `null`; dictionaries keep insertion order, so objects are
association lists. -/
inductive JSON where
  | null : JSON
  | bool : Bool → JSON
  | num : Int → JSON
  | str : String → JSON
  | arr : List JSON → JSON
  | obj : List (String × JSON) → JSON

mutual

/-- Decidable equality for `JSON` (hand-rolled: `deriving` does not handle
the nesting). -/
def JSON.decEq : (a b : JSON) → Decidable (a = b)
  | .null, .null => isTrue rfl
  | .null, .bool _ => isFalse (fun h => JSON.noConfusion h)
  | .null, .num _ => isFalse (fun h => JSON.noConfusion h)
  | .null, .str _ => isFalse (fun h => JSON.noConfusion h)
  | .null, .arr _ => isFalse (fun h => JSON.noConfusion h)
  | .null, .obj _ => isFalse (fun h => JSON.noConfusion h)
  | .bool _, .null => isFalse (fun h => JSON.noConfusion h)
  | .bool a, .bool b =>
      match Bool.decEq a b with
      | isTrue h => isTrue (h ▸ rfl)
      | isFalse h => isFalse (fun he => h (JSON.bool.inj he))
  | .bool _, .num _ => isFalse (fun h => JSON.noConfusion h)
  | .bool _, .str _ => isFalse (fun h => JSON.noConfusion h)
  | .bool _, .arr _ => isFalse (fun h => JSON.noConfusion h)
  | .bool _, .obj _ => isFalse (fun h => JSON.noConfusion h)
  | .num _, .null => isFalse (fun h => JSON.noConfusion h)
  | .num _, .bool _ => isFalse (fun h => JSON.noConfusion h)
  | .num a, .num b =>
      match Int.decEq a b with
      | isTrue h => isTrue (h ▸ rfl)
      | isFalse h => isFalse (fun he => h (JSON.num.inj he))
  | .num _, .str _ => isFalse (fun h => JSON.noConfusion h)
  | .num _, .arr _ => isFalse (fun h => JSON.noConfusion h)
  | .num _, .obj _ => isFalse (fun h => JSON.noConfusion h)
  | .str _, .null => isFalse (fun h => JSON.noConfusion h)
  | .str _, .bool _ => isFalse (fun h => JSON.noConfusion h)
  | .str _, .num _ => isFalse (fun h => JSON.noConfusion h)
  | .str a, .str b =>
      match String.decEq a b with
      | isTrue h => isTrue (h ▸ rfl)
      | isFalse h => isFalse (fun he => h (JSON.str.inj he))
  | .str _, .arr _ => isFalse (fun h => JSON.noConfusion h)
  | .str _, .obj _ => isFalse (fun h => JSON.noConfusion h)
  | .arr _, .null => isFalse (fun h => JSON.noConfusion h)
  | .arr _, .bool _ => isFalse (fun h => JSON.noConfusion h)
  | .arr _, .num _ => isFalse (fun h => JSON.noConfusion h)
  | .arr _, .str _ => isFalse (fun h => JSON.noConfusion h)
  | .arr xs, .arr ys =>
      match JSON.decEqList xs ys with
      | isTrue h => isTrue (h ▸ rfl)
      | isFalse h => isFalse (fun he => h (JSON.arr.inj he))
  | .arr _, .obj _ => isFalse (fun h => JSON.noConfusion h)
  | .obj _, .null => isFalse (fun h => JSON.noConfusion h)
  | .obj _, .bool _ => isFalse (fun h => JSON.noConfusion h)
  | .obj _, .num _ => isFalse (fun h => JSON.noConfusion h)
  | .obj _, .str _ => isFalse (fun h => JSON.noConfusion h)
  | .obj _, .arr _ => isFalse (fun h => JSON.noConfusion h)
  | .obj fs, .obj gs =>
      match JSON.decEqFields fs gs with
      | isTrue h => isTrue (h ▸ rfl)
      | isFalse h => isFalse (fun he => h (JSON.obj.inj he))

def JSON.decEqList : (a b : List JSON) → Decidable (a = b)
  | [], [] => isTrue rfl
  | [], _ :: _ => isFalse (fun h => List.noConfusion h)
  | _ :: _, [] => isFalse (fun h => List.noConfusion h)
  | x :: xs, y :: ys =>
      match JSON.decEq x y, JSON.decEqList xs ys with
      | isTrue h1, isTrue h2 => isTrue (by rw [h1, h2])
      | isFalse h1, _ => isFalse (fun he => h1 (List.cons.inj he).1)
      | _, isFalse h2 => isFalse (fun he => h2 (List.cons.inj he).2)

def JSON.decEqFields : (a b : List (String × JSON)) → Decidable (a = b)
  | [], [] => isTrue rfl
  | [], _ :: _ => isFalse (fun h => List.noConfusion h)
  | _ :: _, [] => isFalse (fun h => List.noConfusion h)
  | (k, v) :: xs, (k2, v2) :: ys =>
      match String.decEq k k2, JSON.decEq v v2, JSON.decEqFields xs ys with
      | isTrue h0, isTrue h1, isTrue h2 => isTrue (by rw [h0, h1, h2])
      | isFalse h0, _, _ =>
          isFalse (fun he => h0 (congrArg Prod.fst (List.cons.inj he).1))
      | _, isFalse h1, _ =>
          isFalse (fun he => h1 (congrArg Prod.snd (List.cons.inj he).1))
      | _, _, isFalse h2 => isFalse (fun he => h2 (List.cons.inj he).2)

end

instance : DecidableEq JSON := JSON.decEq

/-- Python truthiness (`if x:`): `None`, `False`, `0`, `""`, `[]` and
an empty dict are falsy, everything else is truthy. -/
def truthy : JSON → Bool
  | .null => false
  | .bool b => b
  | .num n => n != 0
  | .str s => !s.isEmpty
  | .arr xs => !xs.isEmpty
  | .obj fs => !fs.isEmpty

/-- Truthiness of an optional value (Python `None` when absent). -/
def truthyO : Option JSON → Bool
  | none => false
  | some j => truthy j

/-- Key lookup in a JSON object; `none` when the key is missing or the value
is not a dict. -/
def JSON.getKey : JSON → String → Option JSON
  | .obj fs, k => (fs.find? (fun p => p.1 == k)).map (fun p => p.2)
  | _, _ => none

/-- Python `d.get(k)`: the value, or `None` when missing.  (On a non-dict
Python would raise; such executions are outside the model.) -/
def jget (j : JSON) (k : String) : JSON := (j.getKey k).getD .null

/-- Python `k in d` on a dict. -/
def hasKey (j : JSON) (k : String) : Bool := (j.getKey k).isSome

/-- Python `None` for a missing optional value. -/
def ofOpt : Option JSON → JSON
  | none => .null
  | some j => j

/-- The string payload of a JSON value at places where the script assumes a
string (there Python would raise on a non-string). -/
def asStr : JSON → String
  | .str s => s
  | _ => ""

/-- Replace the value of a key in a dict (Python `d[k] = v`): in-place update
keeping position, appending when the key is new. -/
def setField : List (String × JSON) → String → JSON → List (String × JSON)
  | [], k, v => [(k, v)]
  | (k', v') :: rest, k, v =>
      if k' == k then (k', v) :: rest else (k', v') :: setField rest k v

/-- Python `d[k] = v` on a JSON object (the script only assigns into dicts). -/
def JSON.set : JSON → String → JSON → JSON
  | .obj fs, k, v => .obj (setField fs k v)
  | j, _, _ => j

/-- The keys of a JSON object in order. -/
def JSON.keys : JSON → List String
  | .obj fs => fs.map (fun p => p.1)
  | _ => []

example : truthy (JSON.str "") = false := by decide
example : jget (JSON.obj [("a", .str "x")]) "a" = .str "x" := by decide
example : (JSON.obj [("a", .str "x")]).set "a" (.str "y")
    = JSON.obj [("a", .str "y")] := by decide

/-- Substring test on character lists: Python `needle in hay`.  The empty
needle is contained in everything, as in Python. -/
def listHasSub (hay needle : List Char) : Bool :=
  needle.isPrefixOf hay ||
    match hay with
    | [] => false
    | _ :: t => listHasSub t needle

/-- Python `needle in hay` on strings. -/
def strHasSub (hay needle : String) : Bool := listHasSub hay.toList needle.toList

/-- Python `str.upper()` (the script only compares against ASCII keywords,
for which `Char.toUpper` agrees with Python). -/
def upperAscii (s : String) : String := String.mk (s.toList.map Char.toUpper)

/-- Python `str.strip()`: drop whitespace from both ends. -/
def pyStrip (s : String) : String :=
  String.mk (((s.toList.dropWhile Char.isWhitespace).reverse.dropWhile
    Char.isWhitespace).reverse)

mutual

/-- Python `str(...)` of a decoded JSON value (`repr`-style for nested data):
`None`/`True`/`False`, numbers, `\x27`-quoted strings (escaping inside string
payloads is not modelled; the script only probes for an ASCII key name),
bracketed lists, and braced dicts, exactly as CPython prints them. -/
def pyStr : JSON → String
  | .null => "None"
  | .bool true => "True"
  | .bool false => "False"
  | .num n => toString n
  | .str s => "\x27" ++ s ++ "\x27"
  | .arr xs => "[" ++ pyStrElems xs ++ "]"
  | .obj fs => "\x7b" ++ pyStrFields fs ++ "\x7d"

def pyStrElems : List JSON → String
  | [] => ""
  | [x] => pyStr x
  | x :: y :: xs => pyStr x ++ ", " ++ pyStrElems (y :: xs)

def pyStrFields : List (String × JSON) → String
  | [] => ""
  | [(k, v)] => "\x27" ++ k ++ "\x27: " ++ pyStr v
  | (k, v) :: f :: fs =>
      "\x27" ++ k ++ "\x27: " ++ pyStr v ++ ", " ++ pyStrFields (f :: fs)

end

example : pyStr (.obj [("a", .arr [.num 1, .null])])
    = "\x7b\x27a\x27: [1, None]\x7d" := by decide
example : strHasSub "abcd" "bc" = true := by decide
example : strHasSub "abcd" "ca" = false := by decide

/-- Observable effects of one run of the script, in program order. -/
inductive Effect where
  /-- `firebase_sign_in(email, password)` (POST signInWithPassword). -/
  | signInCall : Effect
  /-- `firebase_refresh_token(tok)` (POST securetoken). -/
  | refreshCall : String → Effect
  /-- `firebase_mfa_start(pending, enrollment)`. -/
  | mfaStartCall : String → String → Effect
  /-- `firebase_mfa_finalize(pending, session, code)`. -/
  | mfaFinalizeCall : String → String → String → Effect
  /-- `pm_login(firebase_token, verified2fa)` — the backend exchange. -/
  | pmLoginCall : String → Effect
  /-- `pm_2fa_send_code(firebase_token)`. -/
  | pmSendCodeCall : Effect
  /-- `pm_2fa_validate(firebase_token, token, code)`. -/
  | pmValidateCall : String → String → Effect
  /-- `test_api(auth)` — the cheap probe of the capability key. -/
  | testApiCall : Effect
  /-- `save_auth(auth)` — persisting the session. -/
  | saveCall : JSON → Effect

instance : DecidableEq Effect := by
  intro a b
  cases a <;> cases b <;>
    first
      | exact isTrue rfl
      | exact isFalse (fun h => Effect.noConfusion h)
      | · rename_i x y
          exact match JSON.decEq x y with
            | isTrue h => isTrue (by rw [h])
            | isFalse h => isFalse (fun he => h (by cases he; rfl))
      | · rename_i x y
          exact match String.decEq x y with
            | isTrue h => isTrue (by rw [h])
            | isFalse h => isFalse (fun he => h (by cases he; rfl))
      | · rename_i x1 x2 y1 y2
          exact
            match String.decEq x1 y1, String.decEq x2 y2 with
            | isTrue h1, isTrue h2 => isTrue (by rw [h1, h2])
            | isFalse h1, _ => isFalse (fun he => h1 (by cases he; rfl))
            | _, isFalse h2 => isFalse (fun he => h2 (by cases he; rfl))
      | · rename_i x1 x2 x3 y1 y2 y3
          exact
            match String.decEq x1 y1, String.decEq x2 y2, String.decEq x3 y3 with
            | isTrue h1, isTrue h2, isTrue h3 => isTrue (by rw [h1, h2, h3])
            | isFalse h1, _, _ => isFalse (fun he => h1 (by cases he; rfl))
            | _, isFalse h2, _ => isFalse (fun he => h2 (by cases he; rfl))
            | _, _, isFalse h3 => isFalse (fun he => h3 (by cases he; rfl))

/-- The environment of one run: the stored session, the response each
network endpoint would give, and the operator's keyboard input.  Each auth
endpoint is hit at most once per run, so a fixed response per endpoint is
fully general; `test_api` can run twice (with different `auth` dicts), so its
outcome is a function of the dict.  A `(status, body)` pair stands for
`resp.status_code, resp.json()`. -/
structure World where
  /-- Result of `load_auth()` in the runs where it does not crash: `some`
  a loaded session dict, `none` for no session (see `load_auth` below for
  its own contract, including the crashing case). -/
  stored : Option JSON
  /-- Response of the token-refresh endpoint. -/
  refreshResp : Nat × JSON
  /-- Body of the signInWithPassword response (its status code is unused
  by the script). -/
  signInResp : JSON
  /-- Body of the mfaSignIn:start response (status unused). -/
  mfaStartResp : JSON
  /-- The code typed at the Firebase 2FA prompt. -/
  firebaseCode : String
  /-- Body of the mfaSignIn:finalize response (status unused). -/
  mfaFinalizeResp : JSON
  /-- Response of the PlayMetrics `/firebase/user/login` exchange. -/
  pmLoginResp : Nat × JSON
  /-- Response of `/firebase/user/2fa/send_code`. -/
  pmSendCodeResp : Nat × JSON
  /-- The code typed at the PlayMetrics 2FA prompt. -/
  pmCode : String
  /-- Response of `/firebase/user/2fa/validate`. -/
  pmValidateResp : Nat × JSON
  /-- Whether `test_api(auth)` succeeds (status 200) for a given dict. -/
  testApiOk : JSON → Bool
  /-- `datetime.now().isoformat()`. -/
  now : String

/-- `firebase_refresh_token(refresh_token)` (source lines 111–125): on
status 200 returns `(data.get("id_token"), data.get("refresh_token"))`,
otherwise `(None, None)`. -/
def firebase_refresh_token (resp : Nat × JSON) : Option JSON × Option JSON :=
  if resp.1 = 200 then (resp.2.getKey "id_token", resp.2.getKey "refresh_token")
  else (none, none)

/-- Python `l[0]`.  The script indexes only after a truthiness check; on a
truthy non-list Python would raise, which is outside the model. -/
def pyFirst : JSON → JSON
  | .arr (x :: _) => x
  | _ => .null

/-- `result["error"].get("message", "Unknown error")` (source line 277). -/
def errMsg (result : JSON) : String :=
  match (jget result "error").getKey "message" with
  | none => "Unknown error"
  | some v => asStr v

/-- `"MFA" in msg.upper() or "SECOND_FACTOR" in msg.upper()` (line 278). -/
def mentionsMFA (msg : String) : Bool :=
  strHasSub (upperAscii msg) "MFA" || strHasSub (upperAscii msg) "SECOND_FACTOR"

/-- Python iteration over a decoded JSON value that the script expects to be
a list (iterating anything else is outside the model). -/
def asList : JSON → List JSON
  | .arr xs => xs
  | _ => []

/-- `_handle_firebase_mfa(result)` (source lines 293–339): no enrollment
info means failure; otherwise the first enrolled factor is challenged via
`firebase_mfa_start`, the typed code is finalized, and on success a fresh
three-field session dict is returned. -/
def _handle_firebase_mfa (w : World) (result : JSON) : Option JSON × List Effect :=
  let mfa_pending := jget result "mfaPendingCredential"
  let mfa_info := (result.getKey "mfaInfo").getD (.arr [])
  if !truthy mfa_info then (none, [])
  else
    let mfa := pyFirst mfa_info
    let enrollment_id := jget mfa "mfaEnrollmentId"
    let start_result := w.mfaStartResp
    let effs := [Effect.mfaStartCall (asStr mfa_pending) (asStr enrollment_id)]
    if truthy (jget start_result "error") then (none, effs)
    else
      let session_info :=
        jget ((start_result.getKey "phoneResponseInfo").getD (.obj [])) "sessionInfo"
      if !truthy session_info then (none, effs)
      else
        let code := pyStrip w.firebaseCode
        if code.isEmpty then (none, effs)
        else
          let final_result := w.mfaFinalizeResp
          let effs2 := effs ++
            [Effect.mfaFinalizeCall (asStr mfa_pending) (asStr session_info) code]
          if truthy (jget final_result "error") then (none, effs2)
          else
            let id_token := final_result.getKey "idToken"
            let refresh_token := final_result.getKey "refreshToken"
            if !truthyO id_token || !truthyO refresh_token then (none, effs2)
            else
              (some (.obj [("firebase_token", ofOpt id_token),
                           ("refresh_token", ofOpt refresh_token),
                           ("captured_at", .str w.now)]), effs2)

/-- `_firebase_login()` (source lines 262–290): sign in with password; a
top-level `mfaPendingCredential` goes straight to the MFA handler; a truthy
`idToken` yields a fresh three-field session dict; otherwise, when the
error message mentions MFA/SECOND_FACTOR, the first error detail whose
`str()` contains `"mfaPendingCredential"` is handed to the MFA handler;
everything else fails. -/
def _firebase_login (w : World) : Option JSON × List Effect :=
  let result := w.signInResp
  let effs := [Effect.signInCall]
  if hasKey result "mfaPendingCredential" then
    let r := _handle_firebase_mfa w result
    (r.1, effs ++ r.2)
  else if hasKey result "idToken" && truthy (jget result "idToken") then
    (some (.obj [("firebase_token", jget result "idToken"),
                 ("refresh_token", jget result "refreshToken"),
                 ("captured_at", .str w.now)]), effs)
  else if truthy (jget result "error") then
    if mentionsMFA (errMsg result) then
      match (asList (((jget result "error").getKey "errors").getD (.arr []))).find?
          (fun d => strHasSub (pyStr d) "mfaPendingCredential") with
      | some detail =>
          let r := _handle_firebase_mfa w detail
          (r.1, effs ++ r.2)
      | none => (none, effs)
    else (none, effs)
  else (none, effs)

/-- The access-key extraction duplicated in both branches of
`_pm_authenticate` (source lines 383–389 and 400–403): take `access_key`
from the top level; when that is falsy, retry under the `user` sub-object
(which defaults to the response itself). -/
def extract_access_key (result : JSON) : JSON :=
  let access_key := (result.getKey "access_key").getD (.str "")
  if !truthy access_key then
    let user := (result.getKey "user").getD result
    (user.getKey "access_key").getD (.str "")
  else access_key

/-- `_pm_authenticate(auth)` (source lines 342–419): exchange the Firebase
token (plus remembered `verified2fa`) for an access key, running the
PlayMetrics 2FA loop when `needs_2fa` is set.  The final `test_api` probe
only prints a warning; the function returns the updated dict regardless. -/
def _pm_authenticate (w : World) (auth : JSON) : Option JSON × List Effect :=
  let verified2fa := (auth.getKey "verified2fa").getD (.str "")
  let status := w.pmLoginResp.1
  let result := w.pmLoginResp.2
  let effs := [Effect.pmLoginCall (asStr verified2fa)]
  if status ≠ 200 then (none, effs)
  else if truthy (jget result "needs_2fa") then
    let s2 := w.pmSendCodeResp.1
    let send_result := w.pmSendCodeResp.2
    let effs2 := effs ++ [Effect.pmSendCodeCall]
    if s2 ≠ 200 then (none, effs2)
    else
      let tfa_token := (send_result.getKey "token").getD (.str "")
      if !truthy tfa_token then (none, effs2)
      else
        let code := pyStrip w.pmCode
        if code.isEmpty then (none, effs2)
        else
          let s3 := w.pmValidateResp.1
          let validate_result := w.pmValidateResp.2
          let effs3 := effs2 ++ [Effect.pmValidateCall (asStr tfa_token) code]
          if s3 ≠ 200 then (none, effs3)
          else
            let access_key := extract_access_key validate_result
            let new_verified2fa := (validate_result.getKey "verified2fa").getD (.str "")
            if truthy access_key then
              let auth2 := (auth.set "pm_access_key" access_key).set "verified2fa" new_verified2fa
              (some auth2, effs3 ++ [Effect.testApiCall])
            else (none, effs3)
  else
    let access_key := extract_access_key result
    if truthy access_key then
      let auth2 := auth.set "pm_access_key" access_key
      (some auth2, effs ++ [Effect.testApiCall])
    else (none, effs)

/-- Step 3 of `get_valid_auth` (source lines 253–259): run
`_pm_authenticate`; on success `save_auth` and return, on failure give up. -/
def pmStep (w : World) (auth : JSON) (effs : List Effect) : Option JSON × List Effect :=
  match _pm_authenticate w auth with
  | (none, e2) => (none, effs ++ e2)
  | (some a2, e2) => (some a2, effs ++ e2 ++ [Effect.saveCall a2])

/-- Steps 2–3 of `get_valid_auth` (source lines 245–259), entered once a
Firebase token is in hand: when a `pm_access_key` is present and `test_api`
accepts it, save and return at once; otherwise re-authenticate with the
PlayMetrics backend. -/
def afterToken (w : World) (auth : JSON) (effs : List Effect) : Option JSON × List Effect :=
  if truthy (jget auth "pm_access_key") then
    if w.testApiOk auth then
      (some auth, effs ++ [Effect.testApiCall, Effect.saveCall auth])
    else pmStep w auth (effs ++ [Effect.testApiCall])
  else pmStep w auth effs

/-- `get_valid_auth()` (source lines 217–259).  Step 1: when a stored
session has a truthy `refresh_token`, refresh it; a failed refresh falls
back to a full `_firebase_login`, as does having no usable stored session. -/
def get_valid_auth (w : World) : Option JSON × List Effect :=
  match w.stored with
  | some a =>
      if truthy a && truthy (jget a "refresh_token") then
        let r := firebase_refresh_token w.refreshResp
        let effs := [Effect.refreshCall (asStr (jget a "refresh_token"))]
        if truthyO r.1 then
          afterToken w ((a.set "firebase_token" (ofOpt r.1)).set "refresh_token" (ofOpt r.2)) effs
        else
          match _firebase_login w with
          | (none, e2) => (none, effs ++ e2)
          | (some a1, e2) => afterToken w a1 (effs ++ e2)
      else
        match _firebase_login w with
        | (none, e2) => (none, e2)
        | (some a1, e2) => afterToken w a1 e2
  | none =>
      match _firebase_login w with
      | (none, e2) => (none, e2)
      | (some a1, e2) => afterToken w a1 e2

/-- What `AUTH_FILE` offers `load_auth()`: no file; a file whose read raises
`OSError`; a file whose raw bytes the platform text encoding cannot decode,
so `read_text()` raises `UnicodeDecodeError`; or a file whose bytes decode
to the given text. -/
inductive FileRead where
  | absent : FileRead
  | unreadable : FileRead
  | undecodable : FileRead
  | content : String → FileRead

/-- The observable outcome of `load_auth()`: a loaded dict, Python `None`,
or an uncaught exception propagating out of the function (crashing the
run). -/
inductive LoadResult where
  | session : JSON → LoadResult
  | noSession : LoadResult
  | crash : LoadResult

/-- `load_auth()` (source lines 201–208): a missing file gives `None`; the
`except (json.JSONDecodeError, OSError)` clause turns an `OSError` on the
read and a `json.loads` failure (`parse s = none`; `parse` models
`json.loads`) into `None`.  A `UnicodeDecodeError` raised by
`AUTH_FILE.read_text()` on undecodable bytes is neither of the caught
classes, so it propagates out uncaught. -/
def load_auth (parse : String → Option JSON) : FileRead → LoadResult
  | .absent => .noSession
  | .unreadable => .noSession
  | .undecodable => .crash
  | .content s =>
      match parse s with
      | some j => .session j
      | none => .noSession

/-- File-system state: directories created so far and file contents.  File
contents are character lists (the serialized JSON text). -/
structure FsState where
  dirs : List String
  files : String → Option (List Char)

/-- Primitive file-system writes, at the granularity at which a crash can
interrupt them. -/
inductive FsOp where
  | mkdirParents : String → FsOp
  | truncate : String → FsOp
  | writeChar : String → Char → FsOp
deriving DecidableEq

/-- Apply one file-system operation. -/
def applyOp (st : FsState) : FsOp → FsState
  | .mkdirParents d => { st with dirs := d :: st.dirs }
  | .truncate p => { st with files := fun q => if q = p then some [] else st.files q }
  | .writeChar p c =>
      { st with
        files := fun q => if q = p then some ((st.files p).getD [] ++ [c]) else st.files q }

/-- Apply a sequence of file-system operations.  A crash mid-`save_auth`
leaves the state of some prefix of the operation list. -/
def applyOps (st : FsState) (ops : List FsOp) : FsState := ops.foldl applyOp st

/-- `save_auth(auth)` (source lines 211–214) as its file-system trace:
`AUTH_FILE.parent.mkdir(parents=True, exist_ok=True)` followed by
`AUTH_FILE.write_text(json.dumps(auth, indent=2))`.  `write_text` opens the
file for writing (truncating it) and then writes the serialized text
(`serialized`) in order — there is no write-to-temp-and-replace step. -/
def save_auth_ops (dir path : String) (serialized : List Char) : List FsOp :=
  FsOp.mkdirParents dir :: FsOp.truncate path :: serialized.map (FsOp.writeChar path)

/-- The ordered candidate endpoints for tournaments (source line 513). -/
def tournamentsCandidates : List String :=
  ["/tournaments", "/events", "/program_admin/events", "/program_admin/tournaments"]

/-- The ordered candidate endpoints for games (source line 526). -/
def gamesCandidates : List String :=
  ["/games", "/matches", "/schedule", "/program_admin/games", "/program_admin/schedule"]

/-- The `for endpoint in [...]: try: ... break except: pass` loop of
`fetch_data` (lines 513–520 and 526–533), instrumented with the list of
endpoints attempted, in order.  `api e = none` models `api_get` raising
(network failure, non-200 status via `raise_for_status`, or an undecodable
body); `some j` is the decoded payload. -/
def tryCandidatesTrace (api : String → Option JSON) :
    List String → List String × Option (String × JSON)
  | [] => ([], none)
  | e :: rest =>
      match api e with
      | some j => ([e], some (e, j))
      | none =>
          let t := tryCandidatesTrace api rest
          (e :: t.1, t.2)

/-- The insertion order of keys in the `data` dict built by `fetch_data`. -/
def fetchKinds : List String := ["players", "teams", "programs", "tournaments", "games"]

/-- The value `fetch_data` stores under each key of `data`, if any (source
lines 469–537): players/teams/programs are single guarded `api_get` calls
(teams and programs are also fetched when players are requested, lines
479–480); tournaments and games run their candidate loops. -/
def entryFor (api : String → Option JSON) (types : List String) : String → Option JSON
  | "players" => if types.contains "players" then api "/players" else none
  | "teams" =>
      if types.contains "teams" || types.contains "players" then api "/teams" else none
  | "programs" =>
      if types.contains "programs" || types.contains "players" then
        api "/program_admin/programs"
      else none
  | "tournaments" =>
      if types.contains "tournaments" then
        (tryCandidatesTrace api tournamentsCandidates).2.map (fun p => p.2)
      else none
  | "games" =>
      if types.contains "games" then
        (tryCandidatesTrace api gamesCandidates).2.map (fun p => p.2)
      else none
  | _ => none

/-- `fetch_data(auth, types)` (source lines 469–537): the `data` dict as an
association list in insertion order; a key is present exactly when its
fetch succeeded. -/
def fetch_data (api : String → Option JSON) (types : List String) : List (String × JSON) :=
  fetchKinds.filterMap (fun k => (entryFor api types k).map (fun j => (k, j)))

/-- The api oracle for the fetch witnesses: `/schedule` (third games
candidate) and `/events` (second tournaments candidate) succeed, everything
else raises. -/
def apiW : String → Option JSON := fun e =>
  if e = "/schedule" then some (.str "G")
  else if e = "/events" then some (.str "T")
  else none

/-- An api oracle for which every candidate endpoint raises but `/teams`
succeeds. -/
def apiF : String → Option JSON := fun e =>
  if e = "/teams" then some (.str "TEAMS") else none

/-- A stored session carrying every field: refresh token, capability key
and remember token. -/
def storedFull : JSON := .obj
  [("firebase_token", .str "OLD"), ("refresh_token", .str "RT"),
   ("pm_access_key", .str "PK"), ("verified2fa", .str "V2"),
   ("captured_at", .str "t0")]

/-- Baseline witness world: no stored session, password sign-in succeeds
without MFA, the backend exchange returns a top-level access key, probes
succeed. -/
def wBase : World := {
  stored := none
  refreshResp := (400, .obj [])
  signInResp := .obj [("idToken", .str "T"), ("refreshToken", .str "R")]
  mfaStartResp := .obj []
  firebaseCode := ""
  mfaFinalizeResp := .obj []
  pmLoginResp := (200, .obj [("access_key", .str "K")])
  pmSendCodeResp := (200, .obj [])
  pmCode := ""
  pmValidateResp := (200, .obj [])
  testApiOk := fun _ => true
  now := "2026-01-01T00:00:00" }

/-- The session `_firebase_login` produces in `wBase`. -/
def freshSession : JSON := .obj
  [("firebase_token", .str "T"), ("refresh_token", .str "R"),
   ("captured_at", .str "2026-01-01T00:00:00")]

/-- A world whose stored refresh token the identity provider rejects
(status 400 on the refresh endpoint). -/
def wRefreshRejected : World := { wBase with stored := some storedFull }

/-- A world whose stored refresh token refreshes successfully. -/
def wRefreshOk : World := { wBase with
  stored := some storedFull
  refreshResp := (200, .obj [("id_token", .str "NEW"), ("refresh_token", .str "RT2")]) }

/-- `wRefreshOk` after the refresh has been written into the stored dict. -/
def authRefreshed : JSON := .obj
  [("firebase_token", .str "NEW"), ("refresh_token", .str "RT2"),
   ("pm_access_key", .str "PK"), ("verified2fa", .str "V2"),
   ("captured_at", .str "t0")]

/-- A world whose backend exchange returns 200 but no access key anywhere. -/
def wNoKey : World := { wBase with pmLoginResp := (200, .obj [("status", .str "ok")]) }

/-- An error-detail entry carrying the pending-credential handle together
with enrollment info for one factor. -/
def nestedDetail : JSON := .obj
  [("mfaPendingCredential", .str "PC"),
   ("mfaInfo", .arr [.obj [("mfaEnrollmentId", .str "E1")]])]

/-- A sign-in response carrying the pending-credential handle only nested
inside the error-detail list (via `nestedDetail`), under a message that
does not mention MFA. -/
def signInNested : JSON := .obj [("error", .obj
  [("message", .str "VERIFY"),
   ("errors", .arr [nestedDetail])])]

/-- A world in which the sign-in response is `signInNested` and every MFA
endpoint and prompt would succeed were the challenge attempted. -/
def wC6 : World := { wBase with
  signInResp := signInNested
  mfaStartResp := .obj [("phoneResponseInfo", .obj [("sessionInfo", .str "SI")])]
  firebaseCode := "123456"
  mfaFinalizeResp := .obj [("idToken", .str "TK"), ("refreshToken", .str "RK")] }

/-- `wC6` with the error message changed to one that mentions MFA. -/
def wC6b : World := { wC6 with
  signInResp := .obj [("error", .obj
    [("message", .str "SECOND_FACTOR_REQUIRED"),
     ("errors", .arr [.obj
       [("mfaPendingCredential", .str "PC"),
        ("mfaInfo", .arr [.obj [("mfaEnrollmentId", .str "E1")]])]])])] }

/-- Initial file-system state for the save-atomicity analysis: the auth
file holds a previously saved session. -/
def fsOld : FsState :=
  { dirs := [], files := fun q => if q = "auth.json" then some ['O', 'L', 'D'] else none }

/-! ### Helper lemmas about the model -/

theorem tryTrace_append (api : String → Option JSON) (pre : List String) (c : String)
    (post : List String) (p : JSON) (hpre : ∀ e ∈ pre, api e = none)
    (hc : api c = some p) :
    tryCandidatesTrace api (pre ++ c :: post) = (pre ++ [c], some (c, p)) := by
  induction pre with
  | nil => simp [tryCandidatesTrace, hc]
  | cons x xs ih =>
      have hx : api x = none := hpre x (by simp)
      have ih2 := ih (fun e he => hpre e (by simp [he]))
      simp [tryCandidatesTrace, hx, ih2]

theorem tryTrace_none (api : String → Option JSON) (cs : List String)
    (h : ∀ e ∈ cs, api e = none) :
    tryCandidatesTrace api cs = (cs, none) := by
  induction cs with
  | nil => simp [tryCandidatesTrace]
  | cons x xs ih =>
      have hx : api x = none := h x (by simp)
      have ih2 := ih (fun e he => h e (by simp [he]))
      simp [tryCandidatesTrace, hx, ih2]

theorem lookup_fetch_data (api : String → Option JSON) (types : List String)
    (k : String) (hk : k ∈ fetchKinds) :
    List.lookup k (fetch_data api types) = entryFor api types k := by
  fin_cases hk <;>
  · unfold fetch_data fetchKinds
    rcases h1 : entryFor api types "players" with _ | v1 <;>
    rcases h2 : entryFor api types "teams" with _ | v2 <;>
    rcases h3 : entryFor api types "programs" with _ | v3 <;>
    rcases h4 : entryFor api types "tournaments" with _ | v4 <;>
    rcases h5 : entryFor api types "games" with _ | v5 <;>
    simp [h1, h2, h3, h4, h5, List.lookup]

theorem contains_filter_ne (ts : List String) (s x : String) (h : s ≠ x) :
    (ts.filter (fun t => t != x)).contains s = ts.contains s := by
  induction ts with
  | nil => rfl
  | cons y ys ih =>
      by_cases hy : y = x
      · subst hy; simp [List.filter_cons, List.contains_cons, h, ih]
      · simp [List.filter_cons, List.contains_cons, hy, h, ih]

theorem contains_filter_self (ts : List String) (x : String) :
    (ts.filter (fun t => t != x)).contains x = false := by
  induction ts with
  | nil => rfl
  | cons y ys ih =>
      by_cases hy : y = x
      · subst hy; simp [List.filter_cons, ih]
      · simp [List.filter_cons, List.contains_cons, hy, Ne.symm hy, ih]

/-! ### Claims about the resilient fetch layer -/

/-- **C1.** For every requested resource kind with an ordered
candidate-endpoint list (games: 5 candidates, tournaments: 4), `fetch_data`
attempts the candidates strictly in the declared order; the first candidate
whose request succeeds and decodes short-circuits the search and its payload
is the result, and every candidate before it is attempted exactly once.
(The successful candidate is written `cG`/`cT`, the failing ones before it
`preG`/`preT`; the attempted list is exactly the failing ones in declared
order followed by the successful one, each exactly once.) -/
theorem fetch_tries_candidates_in_declared_order
    (api : String → Option JSON) (types : List String)
    (preG : List String) (cG : String) (postG : List String) (pG : JSON)
    (preT : List String) (cT : String) (postT : List String) (pT : JSON)
    (hG : gamesCandidates = preG ++ cG :: postG)
    (hGf : ∀ e ∈ preG, api e = none) (hGs : api cG = some pG)
    (hT : tournamentsCandidates = preT ++ cT :: postT)
    (hTf : ∀ e ∈ preT, api e = none) (hTs : api cT = some pT)
    (hg : "games" ∈ types) (ht : "tournaments" ∈ types) :
    ((tryCandidatesTrace api gamesCandidates).1 = preG ++ [cG] ∧
      List.lookup "games" (fetch_data api types) = some pG ∧
      ∀ e ∈ preG, (preG ++ [cG]).count e = 1) ∧
    ((tryCandidatesTrace api tournamentsCandidates).1 = preT ++ [cT] ∧
      List.lookup "tournaments" (fetch_data api types) = some pT ∧
      ∀ e ∈ preT, (preT ++ [cT]).count e = 1) := by
  have hGt : tryCandidatesTrace api gamesCandidates = (preG ++ [cG], some (cG, pG)) := by
    rw [hG]; exact tryTrace_append api preG cG postG pG hGf hGs
  have hTt : tryCandidatesTrace api tournamentsCandidates = (preT ++ [cT], some (cT, pT)) := by
    rw [hT]; exact tryTrace_append api preT cT postT pT hTf hTs
  have hGnd : (preG ++ [cG]).Nodup := by
    have h0 : gamesCandidates.Nodup := by decide
    rw [hG] at h0
    exact h0.sublist (((List.nil_sublist postG).cons₂ cG).append_left preG)
  have hTnd : (preT ++ [cT]).Nodup := by
    have h0 : tournamentsCandidates.Nodup := by decide
    rw [hT] at h0
    exact h0.sublist (((List.nil_sublist postT).cons₂ cT).append_left preT)
  refine ⟨⟨by rw [hGt], ?_, ?_⟩, ⟨by rw [hTt], ?_, ?_⟩⟩
  · rw [lookup_fetch_data api types "games" (by decide)]
    simp [entryFor, hg, hGt]
  · intro e he
    exact List.count_eq_one_of_mem hGnd (List.mem_append_left _ he)
  · rw [lookup_fetch_data api types "tournaments" (by decide)]
    simp [entryFor, ht, hTt]
  · intro e he
    exact List.count_eq_one_of_mem hTnd (List.mem_append_left _ he)

/-- Witness for C1: with `apiW` (third games candidate and second
tournaments candidate succeed), the traces, payloads and attempt counts are
as the theorem states. -/
theorem fetch_tries_candidates_in_declared_order_witness :
    ((tryCandidatesTrace apiW gamesCandidates).1 = ["/games", "/matches"] ++ ["/schedule"] ∧
      List.lookup "games" (fetch_data apiW ["games", "tournaments"]) = some (.str "G") ∧
      ∀ e ∈ ["/games", "/matches"], ((["/games", "/matches"] : List String) ++ ["/schedule"]).count e = 1) ∧
    ((tryCandidatesTrace apiW tournamentsCandidates).1 = ["/tournaments"] ++ ["/events"] ∧
      List.lookup "tournaments" (fetch_data apiW ["games", "tournaments"]) = some (.str "T") ∧
      ∀ e ∈ ["/tournaments"], ((["/tournaments"] : List String) ++ ["/events"]).count e = 1) :=
  fetch_tries_candidates_in_declared_order apiW ["games", "tournaments"]
    ["/games", "/matches"] "/schedule" ["/program_admin/games", "/program_admin/schedule"]
    (.str "G")
    ["/tournaments"] "/events" ["/program_admin/events", "/program_admin/tournaments"]
    (.str "T")
    rfl (by decide) rfl rfl (by decide) rfl (by decide) (by decide)

/-- **C2.** If every candidate endpoint for one resource kind fails, the
result for that kind is NotFound (the kind is absent from the returned
data) and this does not abort the run: the returned data is exactly what it
would be had that kind not been requested, and in particular every other
requested resource kind is still fetched (e.g. a successful `/teams` call
still lands under `"teams"`). -/
theorem fetch_all_candidates_fail_not_found
    (api : String → Option JSON) (types : List String)
    (hgf : ∀ e ∈ gamesCandidates, api e = none) :
    List.lookup "games" (fetch_data api types) = none ∧
    fetch_data api (types.filter (fun t => t != "games")) = fetch_data api types ∧
    ("teams" ∈ types → ∀ t0, api "/teams" = some t0 →
      List.lookup "teams" (fetch_data api types) = some t0) ∧
    ((∀ e ∈ tournamentsCandidates, api e = none) →
      List.lookup "tournaments" (fetch_data api types) = none) := by
  have hGt : tryCandidatesTrace api gamesCandidates = (gamesCandidates, none) :=
    tryTrace_none api gamesCandidates hgf
  refine ⟨?_, ?_, ?_, ?_⟩
  · rw [lookup_fetch_data api types "games" (by decide)]
    cases h : types.contains "games" <;> simp [entryFor, h, hGt]
  · have e1 : entryFor api (types.filter (fun t => t != "games")) "players"
        = entryFor api types "players" := by
      simp only [entryFor, contains_filter_ne types "players" "games" (by decide)]
    have e2 : entryFor api (types.filter (fun t => t != "games")) "teams"
        = entryFor api types "teams" := by
      simp only [entryFor, contains_filter_ne types "teams" "games" (by decide),
        contains_filter_ne types "players" "games" (by decide)]
    have e3 : entryFor api (types.filter (fun t => t != "games")) "programs"
        = entryFor api types "programs" := by
      simp only [entryFor, contains_filter_ne types "programs" "games" (by decide),
        contains_filter_ne types "players" "games" (by decide)]
    have e4 : entryFor api (types.filter (fun t => t != "games")) "tournaments"
        = entryFor api types "tournaments" := by
      simp only [entryFor, contains_filter_ne types "tournaments" "games" (by decide)]
    have e5 : entryFor api (types.filter (fun t => t != "games")) "games"
        = entryFor api types "games" := by
      simp only [entryFor, contains_filter_self types "games", hGt]
      cases h : types.contains "games" <;> simp [h]
    unfold fetch_data fetchKinds
    simp only [List.filterMap_cons, List.filterMap_nil, e1, e2, e3, e4, e5]
  · intro hteams t0 ht0
    rw [lookup_fetch_data api types "teams" (by decide)]
    simp [entryFor, hteams, ht0]
  · intro htf
    have hTt : tryCandidatesTrace api tournamentsCandidates = (tournamentsCandidates, none) :=
      tryTrace_none api tournamentsCandidates htf
    rw [lookup_fetch_data api types "tournaments" (by decide)]
    cases h : types.contains "tournaments" <;> simp [entryFor, h, hTt]

/-- Witness for C2: with `apiF` every games and tournaments candidate
raises while `/teams` succeeds; both kinds are absent, the data equals the
games-less request, and teams is still fetched. -/
theorem fetch_all_candidates_fail_not_found_witness :
    List.lookup "games" (fetch_data apiF ["players", "teams", "programs", "tournaments", "games"]) = none ∧
    fetch_data apiF (["players", "teams", "programs", "tournaments", "games"].filter (fun t => t != "games"))
      = fetch_data apiF ["players", "teams", "programs", "tournaments", "games"] ∧
    ("teams" ∈ (["players", "teams", "programs", "tournaments", "games"] : List String) →
      ∀ t0, apiF "/teams" = some t0 →
      List.lookup "teams" (fetch_data apiF ["players", "teams", "programs", "tournaments", "games"]) = some t0) ∧
    ((∀ e ∈ tournamentsCandidates, apiF e = none) →
      List.lookup "tournaments" (fetch_data apiF ["players", "teams", "programs", "tournaments", "games"]) = none) :=
  fetch_all_candidates_fail_not_found apiF
    ["players", "teams", "programs", "tournaments", "games"] (by decide)

/-! ### Helper lemmas about the authentication flow -/

theorem pm_effs_head (w : World) (auth : JSON) :
    ∃ t, (_pm_authenticate w auth).2
      = Effect.pmLoginCall (asStr ((auth.getKey "verified2fa").getD (.str ""))) :: t := by
  simp only [_pm_authenticate]
  repeat' split
  all_goals exact ⟨_, rfl⟩

theorem pm_no_signIn (w : World) (auth : JSON) :
    Effect.signInCall ∉ (_pm_authenticate w auth).2 := by
  simp only [_pm_authenticate]
  repeat' split
  all_goals simp

theorem pmStep_shift (w : World) (a : JSON) (effs : List Effect) :
    pmStep w a effs = ((pmStep w a []).1, effs ++ (pmStep w a []).2) := by
  unfold pmStep
  rcases h : _pm_authenticate w a with ⟨r, e2⟩
  cases r <;> simp

theorem afterToken_shift (w : World) (a : JSON) (effs : List Effect) :
    afterToken w a effs = ((afterToken w a []).1, effs ++ (afterToken w a []).2) := by
  unfold afterToken
  split
  · split
    · simp
    · rw [pmStep_shift w a (effs ++ [Effect.testApiCall]),
        pmStep_shift w a ([] ++ [Effect.testApiCall])]
      simp
  · rw [pmStep_shift w a effs]

theorem login_effs_head (w : World) :
    ∃ t, (_firebase_login w).2 = Effect.signInCall :: t := by
  simp only [_firebase_login]
  repeat' split
  all_goals exact ⟨_, rfl⟩

theorem handler_some_shape (w : World) (r : JSON) (a : JSON)
    (h : (_handle_firebase_mfa w r).1 = some a) :
    ∃ v1 v2, a = JSON.obj [("firebase_token", v1), ("refresh_token", v2),
      ("captured_at", .str w.now)] := by
  simp only [_handle_firebase_mfa] at h
  repeat' split at h
  all_goals
    first
      | exact Option.noConfusion h
      | (injection h with h2; exact ⟨_, _, h2.symm⟩)

theorem login_some_shape (w : World) (a : JSON) (h : (_firebase_login w).1 = some a) :
    ∃ v1 v2, a = JSON.obj [("firebase_token", v1), ("refresh_token", v2),
      ("captured_at", .str w.now)] := by
  simp only [_firebase_login] at h
  repeat' split at h
  all_goals
    first
      | exact Option.noConfusion h
      | (injection h with h2; exact ⟨_, _, h2.symm⟩)
      | exact handler_some_shape w _ a h

/-! ### Claims about the authentication flow -/

/-- **C3.** When a refresh of the identity token with the stored refresh
token is Rejected, the flow behaves exactly as if no session were saved: a
full signIn (password sign-in, with MFA handled inline by
`_firebase_login`) is performed, the run returns the same result as the
no-session run — so the sign-in outcome determines whether authentication
proceeds — and the effects differ only by the leading refresh attempt. -/
theorem rejected_refresh_triggers_full_sign_in (w : World) (s : JSON)
    (h1 : w.stored = some s) (h2 : truthy s = true)
    (h3 : truthy (jget s "refresh_token") = true)
    (h4 : truthyO (firebase_refresh_token w.refreshResp).1 = false) :
    (get_valid_auth w).1 = (get_valid_auth { w with stored := none }).1 ∧
    (get_valid_auth w).2
      = Effect.refreshCall (asStr (jget s "refresh_token"))
          :: (get_valid_auth { w with stored := none }).2 ∧
    Effect.signInCall ∈ (get_valid_auth w).2 := by
  obtain ⟨t, ht⟩ := login_effs_head w
  rcases hl : _firebase_login w with ⟨r, e2⟩
  have hfl : _firebase_login { w with stored := none } = (r, e2) := hl
  rw [hl] at ht
  simp only at ht
  have ha : afterToken { w with stored := none } = afterToken w := rfl
  unfold get_valid_auth
  rw [h1]
  simp only [h2, h3, h4, hl, hfl, ha, Bool.and_self, if_true, Bool.false_eq_true, if_false,
    List.singleton_append, List.cons_append, List.nil_append]
  cases r with
  | none =>
      refine ⟨rfl, rfl, ?_⟩
      rw [ht]
      exact List.mem_cons_of_mem _ (List.mem_cons_self _ _)
  | some a1 =>
      dsimp only
      rw [afterToken_shift w a1 (Effect.refreshCall (asStr (jget s "refresh_token")) :: e2),
        afterToken_shift w a1 e2]
      refine ⟨rfl, by simp, ?_⟩
      rw [ht]
      simp

/-- Witness for C3: `wRefreshRejected` stores a full session whose refresh
is rejected (status 400); the run matches the no-session run with the
refresh attempt prepended, and a password sign-in happens. -/
theorem rejected_refresh_triggers_full_sign_in_witness :
    (get_valid_auth wRefreshRejected).1
      = (get_valid_auth { wRefreshRejected with stored := none }).1 ∧
    (get_valid_auth wRefreshRejected).2
      = Effect.refreshCall "RT"
          :: (get_valid_auth { wRefreshRejected with stored := none }).2 ∧
    Effect.signInCall ∈ (get_valid_auth wRefreshRejected).2 :=
  rejected_refresh_triggers_full_sign_in wRefreshRejected storedFull rfl
    (by decide) (by decide) (by decide)

/-- **C4.** After a successful refresh, if the stored session already
carries a capability key (`pm_access_key`) and the `test_api` probe accepts
it, the backend exchange is skipped entirely (no `pm_login` call happens)
and the session is persisted and returned; if the probe rejects it, the
exchange (`_pm_authenticate`) runs again — its outcome is the run's
outcome — without re-running signIn. -/
theorem cached_capability_key_probe (w : World) (s : JSON)
    (h1 : w.stored = some s) (h2 : truthy s = true)
    (h3 : truthy (jget s "refresh_token") = true)
    (h4 : truthyO (firebase_refresh_token w.refreshResp).1 = true)
    (auth1 : JSON)
    (hA : auth1 = (s.set "firebase_token"
        (ofOpt (firebase_refresh_token w.refreshResp).1)).set
        "refresh_token" (ofOpt (firebase_refresh_token w.refreshResp).2))
    (h5 : truthy (jget auth1 "pm_access_key") = true) :
    (w.testApiOk auth1 = true →
      get_valid_auth w = (some auth1,
        [Effect.refreshCall (asStr (jget s "refresh_token")), Effect.testApiCall,
         Effect.saveCall auth1]) ∧
      ∀ v, Effect.pmLoginCall v ∉ (get_valid_auth w).2) ∧
    (w.testApiOk auth1 = false →
      (get_valid_auth w).1 = (_pm_authenticate w auth1).1 ∧
      (∃ t, (get_valid_auth w).2
        = Effect.refreshCall (asStr (jget s "refresh_token")) :: Effect.testApiCall
            :: Effect.pmLoginCall (asStr ((auth1.getKey "verified2fa").getD (.str ""))) :: t) ∧
      Effect.signInCall ∉ (get_valid_auth w).2) := by
  have hw : get_valid_auth w
      = afterToken w auth1 [Effect.refreshCall (asStr (jget s "refresh_token"))] := by
    unfold get_valid_auth
    rw [h1]
    simp only [h2, h3, h4, hA, Bool.and_self, if_true]
  constructor
  · intro hp
    have hstep : afterToken w auth1 [Effect.refreshCall (asStr (jget s "refresh_token"))]
        = (some auth1,
          [Effect.refreshCall (asStr (jget s "refresh_token")), Effect.testApiCall,
           Effect.saveCall auth1]) := by
      unfold afterToken
      simp [h5, hp]
    rw [hw, hstep]
    exact ⟨rfl, by intro v; simp⟩
  · intro hp
    obtain ⟨t0, ht0⟩ := pm_effs_head w auth1
    have hnosign := pm_no_signIn w auth1
    have hb : get_valid_auth w
        = pmStep w auth1
            [Effect.refreshCall (asStr (jget s "refresh_token")), Effect.testApiCall] := by
      rw [hw]
      unfold afterToken
      simp [h5, hp]
    rcases hpm : _pm_authenticate w auth1 with ⟨pr, pe⟩
    rw [hpm] at ht0 hnosign
    simp only at ht0 hnosign
    cases pr with
    | none =>
        rw [hb]
        unfold pmStep
        rw [hpm]
        refine ⟨rfl, ⟨t0, by simp [ht0]⟩, ?_⟩
        simp [ht0]
        intro hcontra
        exact hnosign (by rw [ht0]; simp [hcontra])
    | some a2 =>
        rw [hb]
        unfold pmStep
        rw [hpm]
        refine ⟨rfl, ⟨t0 ++ [Effect.saveCall a2], by simp [ht0]⟩, ?_⟩
        simp [ht0]
        intro hcontra
        exact hnosign (by rw [ht0]; simp [hcontra])

/-- Witness for C4 (probe-accepts case): with `wRefreshOk` the refresh
succeeds, the stored `PK` key probes valid, and the run saves and returns
the refreshed session without any backend exchange call. -/
theorem cached_capability_key_probe_witness :
    get_valid_auth wRefreshOk = (some authRefreshed,
      [Effect.refreshCall "RT", Effect.testApiCall, Effect.saveCall authRefreshed]) ∧
    ∀ v, Effect.pmLoginCall v ∉ (get_valid_auth wRefreshOk).2 :=
  (cached_capability_key_probe wRefreshOk storedFull rfl (by decide) (by decide)
    (by decide) authRefreshed (by decide) (by decide)).1 rfl

/-- **C9.** Every full sign-in returns a session containing only the
identity token, the refresh token and the capture timestamp: whatever
`verified2fa` (mfa_remember_token) and `pm_access_key` (capability key)
were in the previously stored session are discarded, so the subsequent
backend exchange runs with an empty remember token (`pmLoginCall ""`).
This holds when no session is stored and when a stored refresh token is
rejected. -/
theorem full_sign_in_returns_bare_session (w : World) (a : JSON)
    (h : (_firebase_login w).1 = some a) :
    a.keys = ["firebase_token", "refresh_token", "captured_at"] ∧
    jget a "pm_access_key" = .null ∧ jget a "verified2fa" = .null ∧
    (w.stored = none →
      ∃ t, (get_valid_auth w).2
        = (_firebase_login w).2 ++ Effect.pmLoginCall "" :: t) ∧
    (∀ s, w.stored = some s → truthy s = true →
      truthy (jget s "refresh_token") = true →
      truthyO (firebase_refresh_token w.refreshResp).1 = false →
      ∃ t, (get_valid_auth w).2
        = Effect.refreshCall (asStr (jget s "refresh_token"))
            :: ((_firebase_login w).2 ++ Effect.pmLoginCall "" :: t)) := by
  obtain ⟨v1, v2, rfl⟩ := login_some_shape w a h
  rcases hl : _firebase_login w with ⟨r, e2⟩
  rw [hl] at h
  simp only at h
  subst h
  refine ⟨rfl, rfl, rfl, ?_, ?_⟩
  · intro hstored
    obtain ⟨t0, ht0⟩ := pm_effs_head w
      (.obj [("firebase_token", v1), ("refresh_token", v2), ("captured_at", .str w.now)])
    have ht0' : (_pm_authenticate w
        (.obj [("firebase_token", v1), ("refresh_token", v2), ("captured_at", .str w.now)])).2
        = Effect.pmLoginCall "" :: t0 := ht0
    have hAT : afterToken w
        (.obj [("firebase_token", v1), ("refresh_token", v2), ("captured_at", .str w.now)]) e2
        = pmStep w
            (.obj [("firebase_token", v1), ("refresh_token", v2), ("captured_at", .str w.now)])
            e2 := rfl
    unfold get_valid_auth
    rw [hstored, hl]
    dsimp only
    rw [hAT]
    unfold pmStep
    rcases hpm : _pm_authenticate w
        (.obj [("firebase_token", v1), ("refresh_token", v2), ("captured_at", .str w.now)])
      with ⟨pr, pe⟩
    rw [hpm] at ht0'
    simp only at ht0'
    cases pr with
    | none => exact ⟨t0, by simp [ht0']⟩
    | some a2 => exact ⟨t0 ++ [Effect.saveCall a2], by simp [ht0']⟩
  · intro s hs h2 h3 h4
    obtain ⟨t0, ht0⟩ := pm_effs_head w
      (.obj [("firebase_token", v1), ("refresh_token", v2), ("captured_at", .str w.now)])
    have ht0' : (_pm_authenticate w
        (.obj [("firebase_token", v1), ("refresh_token", v2), ("captured_at", .str w.now)])).2
        = Effect.pmLoginCall "" :: t0 := ht0
    have hAT : ∀ es, afterToken w
        (.obj [("firebase_token", v1), ("refresh_token", v2), ("captured_at", .str w.now)]) es
        = pmStep w
            (.obj [("firebase_token", v1), ("refresh_token", v2), ("captured_at", .str w.now)])
            es := fun es => rfl
    unfold get_valid_auth
    rw [hs]
    simp only [h2, h3, h4, hl, Bool.and_self, if_true, Bool.false_eq_true, if_false,
      List.singleton_append, List.cons_append, List.nil_append]
    try dsimp only
    rw [hAT]
    unfold pmStep
    rcases hpm : _pm_authenticate w
        (.obj [("firebase_token", v1), ("refresh_token", v2), ("captured_at", .str w.now)])
      with ⟨pr, pe⟩
    rw [hpm] at ht0'
    simp only at ht0'
    cases pr with
    | none => exact ⟨t0, by simp [ht0']⟩
    | some a2 => exact ⟨t0 ++ [Effect.saveCall a2], by simp [ht0']⟩

/-- Witness for C9: in `wBase` the password sign-in returns exactly the
three-field session and the exchange runs with an empty remember token. -/
theorem full_sign_in_returns_bare_session_witness :
    freshSession.keys = ["firebase_token", "refresh_token", "captured_at"] ∧
    jget freshSession "pm_access_key" = .null ∧
    jget freshSession "verified2fa" = .null ∧
    (wBase.stored = none →
      ∃ t, (get_valid_auth wBase).2
        = (_firebase_login wBase).2 ++ Effect.pmLoginCall "" :: t) ∧
    (∀ s, wBase.stored = some s → truthy s = true →
      truthy (jget s "refresh_token") = true →
      truthyO (firebase_refresh_token wBase.refreshResp).1 = false →
      ∃ t, (get_valid_auth wBase).2
        = Effect.refreshCall (asStr (jget s "refresh_token"))
            :: ((_firebase_login wBase).2 ++ Effect.pmLoginCall "" :: t)) :=
  full_sign_in_returns_bare_session wBase freshSession rfl

/-- **C10.** Once the backend exchange (or the 2FA validation) has yielded
a capability key, `_pm_authenticate` returns the updated session with the
probe recorded as its last effect, and its result does not depend on the
probe's outcome (`testApiOk` is arbitrary): at that point a probe failure
is only a warning, never a Rejected outcome.  Moreover `get_valid_auth`
persists the returned session (`saveCall`). -/
theorem obtained_key_probe_failure_only_warns (w : World) (auth : JSON) :
    (∀ result, w.pmLoginResp = (200, result) →
      truthy (jget result "needs_2fa") = false →
      truthy (extract_access_key result) = true →
      _pm_authenticate w auth
        = (some (auth.set "pm_access_key" (extract_access_key result)),
           [Effect.pmLoginCall (asStr ((auth.getKey "verified2fa").getD (.str ""))),
            Effect.testApiCall]) ∧
      ∀ f, (_pm_authenticate { w with testApiOk := f } auth).1
          = some (auth.set "pm_access_key" (extract_access_key result))) ∧
    (∀ result sres vres, w.pmLoginResp = (200, result) →
      truthy (jget result "needs_2fa") = true →
      w.pmSendCodeResp = (200, sres) →
      truthy ((sres.getKey "token").getD (.str "")) = true →
      (pyStrip w.pmCode).isEmpty = false →
      w.pmValidateResp = (200, vres) →
      truthy (extract_access_key vres) = true →
      _pm_authenticate w auth
        = (some ((auth.set "pm_access_key" (extract_access_key vres)).set "verified2fa"
            ((vres.getKey "verified2fa").getD (.str ""))),
           [Effect.pmLoginCall (asStr ((auth.getKey "verified2fa").getD (.str ""))),
            Effect.pmSendCodeCall,
            Effect.pmValidateCall (asStr ((sres.getKey "token").getD (.str ""))) (pyStrip w.pmCode),
            Effect.testApiCall]) ∧
      ∀ f, (_pm_authenticate { w with testApiOk := f } auth).1
          = some ((auth.set "pm_access_key" (extract_access_key vres)).set "verified2fa"
              ((vres.getKey "verified2fa").getD (.str "")))) ∧
    (∀ a1 e1 a2 pe, w.stored = none → _firebase_login w = (some a1, e1) →
      truthy (jget a1 "pm_access_key") = false →
      _pm_authenticate w a1 = (some a2, pe) →
      get_valid_auth w = (some a2, e1 ++ pe ++ [Effect.saveCall a2])) := by
  refine ⟨?_, ?_, ?_⟩
  · intro result hr h2fa hkey
    have heq : _pm_authenticate w auth
        = (some (auth.set "pm_access_key" (extract_access_key result)),
           [Effect.pmLoginCall (asStr ((auth.getKey "verified2fa").getD (.str ""))),
            Effect.testApiCall]) := by
      unfold _pm_authenticate
      rw [hr]
      simp [h2fa, hkey]
    refine ⟨heq, fun f => ?_⟩
    have heqf : _pm_authenticate { w with testApiOk := f } auth = _pm_authenticate w auth := rfl
    rw [heqf, heq]
  · intro result sres vres hr h2fa hs htok hcode hv hkey
    have heq : _pm_authenticate w auth
        = (some ((auth.set "pm_access_key" (extract_access_key vres)).set "verified2fa"
            ((vres.getKey "verified2fa").getD (.str ""))),
           [Effect.pmLoginCall (asStr ((auth.getKey "verified2fa").getD (.str ""))),
            Effect.pmSendCodeCall,
            Effect.pmValidateCall (asStr ((sres.getKey "token").getD (.str ""))) (pyStrip w.pmCode),
            Effect.testApiCall]) := by
      unfold _pm_authenticate
      rw [hr, hs, hv]
      simp [h2fa, htok, hcode, hkey]
    refine ⟨heq, fun f => ?_⟩
    have heqf : _pm_authenticate { w with testApiOk := f } auth = _pm_authenticate w auth := rfl
    rw [heqf, heq]
  · intro a1 e1 a2 pe hstored hlogin hnokey hpm
    unfold get_valid_auth
    rw [hstored, hlogin]
    try dsimp only
    unfold afterToken
    rw [hnokey]
    try dsimp only
    unfold pmStep
    rw [hpm]
    simp

/-- Witness for C10: in `wBase` the exchange returns a top-level key; the
session is updated, the probe is last, and any probe outcome `f` leaves the
result unchanged. -/
theorem obtained_key_probe_failure_only_warns_witness :
    _pm_authenticate wBase freshSession
      = (some (freshSession.set "pm_access_key"
          (extract_access_key (.obj [("access_key", .str "K")]))),
         [Effect.pmLoginCall "", Effect.testApiCall]) ∧
    ∀ f, (_pm_authenticate { wBase with testApiOk := f } freshSession).1
        = some (freshSession.set "pm_access_key"
            (extract_access_key (.obj [("access_key", .str "K")]))) :=
  (obtained_key_probe_failure_only_warns wBase freshSession).1
    (.obj [("access_key", .str "K")]) rfl (by decide) (by decide)

theorem extract_access_key_falsy (result : JSON) :
    truthy (extract_access_key result) = false ↔
      (truthy ((result.getKey "access_key").getD (.str "")) = false ∧
       truthy ((((result.getKey "user").getD result).getKey "access_key").getD (.str ""))
         = false) := by
  unfold extract_access_key
  by_cases h : truthy ((result.getKey "access_key").getD (.str "")) = true
  · simp [h]
  · simp only [Bool.not_eq_true] at h
    simp [h]

/-- **C5.** For every backend exchange or 2FA-validation response (under
that branch's own preconditions), capability-key extraction checks both the
top level of the response and the `user` sub-object before declaring
Rejected: `_pm_authenticate` returns no session exactly when no usable
(truthy) key is present at either location.  A falsy value (e.g. an empty
string) counts as absent, matching the script's own `if not access_key`
test. -/
theorem capability_key_checked_at_both_locations (w : World) (auth : JSON) :
    (∀ result, w.pmLoginResp = (200, result) →
      truthy (jget result "needs_2fa") = false →
      ((_pm_authenticate w auth).1 = none ↔
        (truthy ((result.getKey "access_key").getD (.str "")) = false ∧
         truthy ((((result.getKey "user").getD result).getKey "access_key").getD (.str ""))
           = false))) ∧
    (∀ result sres vres, w.pmLoginResp = (200, result) →
      truthy (jget result "needs_2fa") = true →
      w.pmSendCodeResp = (200, sres) →
      truthy ((sres.getKey "token").getD (.str "")) = true →
      (pyStrip w.pmCode).isEmpty = false →
      w.pmValidateResp = (200, vres) →
      ((_pm_authenticate w auth).1 = none ↔
        (truthy ((vres.getKey "access_key").getD (.str "")) = false ∧
         truthy ((((vres.getKey "user").getD vres).getKey "access_key").getD (.str ""))
           = false))) := by
  constructor
  · intro result hr h2fa
    have hiff := extract_access_key_falsy result
    unfold _pm_authenticate
    rw [hr]
    simp only [h2fa]
    cases hx : truthy (extract_access_key result) with
    | false =>
        simp [hx]
        exact hiff.mp hx
    | true =>
        simp [hx]
        intro hA
        cases hB : truthy ((((result.getKey "user").getD result).getKey
            "access_key").getD (.str "")) with
        | true => rfl
        | false =>
            have hfalse := hiff.mpr ⟨hA, hB⟩
            rw [hx] at hfalse
            exact Bool.noConfusion hfalse
  · intro result sres vres hr h2fa hs htok hcode hv
    have hiff := extract_access_key_falsy vres
    unfold _pm_authenticate
    rw [hr, hs, hv]
    simp only [h2fa, htok, hcode]
    cases hx : truthy (extract_access_key vres) with
    | false =>
        simp [hx, htok, hcode, h2fa]
        exact hiff.mp hx
    | true =>
        simp [hx, htok, hcode, h2fa]
        intro hA
        cases hB : truthy ((((vres.getKey "user").getD vres).getKey
            "access_key").getD (.str "")) with
        | true => rfl
        | false =>
            have hfalse := hiff.mpr ⟨hA, hB⟩
            rw [hx] at hfalse
            exact Bool.noConfusion hfalse

/-- Witness for C5: `wNoKey`'s exchange response has no access key at the
top level and none under `user`, and the outcome is indeed no session. -/
theorem capability_key_checked_at_both_locations_witness :
    (_pm_authenticate wNoKey freshSession).1 = none ↔
      (truthy (((JSON.obj [("status", .str "ok")]).getKey "access_key").getD (.str ""))
          = false ∧
       truthy (((((JSON.obj [("status", .str "ok")]).getKey "user").getD
            (JSON.obj [("status", .str "ok")])).getKey "access_key").getD (.str ""))
          = false) :=
  (capability_key_checked_at_both_locations wNoKey freshSession).1
    (.obj [("status", .str "ok")]) rfl (by decide)

/-- **C7 (code bug).** `load_auth` catches only `json.JSONDecodeError` and
`OSError` (source lines 204–207), and the claim — like the spec's
"PersistenceError ... never propagated as a crash" — is the evident intent
of that clause.  But a store file whose raw bytes the platform encoding
cannot decode makes `AUTH_FILE.read_text()` raise `UnicodeDecodeError`,
which is neither caught class, so the error propagates and the run crashes
instead of loading as no session.  Unreadable (`OSError`) and unparsable
files do load as no session, matching the missing-file result. -/
theorem load_auth_undecodable_bytes_crash :
    load_auth (fun _ => none) .undecodable = .crash ∧
    load_auth (fun _ => none) .undecodable ≠ .noSession ∧
    (∀ j, load_auth (fun _ => none) .undecodable ≠ .session j) ∧
    load_auth (fun _ => none) .undecodable ≠ load_auth (fun _ => none) .absent ∧
    load_auth (fun _ => none) .unreadable = .noSession ∧
    load_auth (fun _ => none) (.content "\x7bbad") = .noSession ∧
    load_auth (fun _ => none) (.content "\x7bbad")
      = load_auth (fun _ => none) .absent ∧
    load_auth (fun _ => none) .unreadable = load_auth (fun _ => none) .absent := by
  refine ⟨rfl, ?_, ?_, ?_, rfl, rfl, rfl, rfl⟩
  · intro h
    exact LoadResult.noConfusion h
  · intro j h
    exact LoadResult.noConfusion h
  · intro h
    exact LoadResult.noConfusion h

/-- **C8 counterexample.** `save_auth` writes in place: stopping its
file-system trace right after the truncation — `take 2` of the trace, a
genuine prefix, as a crash mid-write would — leaves the auth file holding
neither the previously saved contents nor the new ones.  The previous
successful save is corrupted, so the overwrite is not
write-to-temp-then-replace or equivalent, contrary to the claim. -/
theorem save_auth_not_atomic_counterexample :
    (save_auth_ops "appdata" "auth.json" ['N', 'E', 'W']).take 2
        ++ ['N', 'E', 'W'].map (FsOp.writeChar "auth.json")
      = save_auth_ops "appdata" "auth.json" ['N', 'E', 'W'] ∧
    fsOld.files "auth.json" = some ['O', 'L', 'D'] ∧
    (applyOps fsOld ((save_auth_ops "appdata" "auth.json" ['N', 'E', 'W']).take 2)).files
        "auth.json" ≠ some ['O', 'L', 'D'] ∧
    (applyOps fsOld ((save_auth_ops "appdata" "auth.json" ['N', 'E', 'W']).take 2)).files
        "auth.json" ≠ some ['N', 'E', 'W'] := by
  refine ⟨rfl, rfl, ?_, ?_⟩ <;> decide

theorem applyOps_writeChars (path : String) (cs : List Char) (st : FsState)
    (acc : List Char) (hf : st.files path = some acc) :
    (applyOps st (cs.map (FsOp.writeChar path))).files path = some (acc ++ cs) ∧
    (applyOps st (cs.map (FsOp.writeChar path))).dirs = st.dirs := by
  induction cs generalizing st acc with
  | nil =>
      refine ⟨?_, rfl⟩
      simpa [applyOps] using hf
  | cons c cs ih =>
      have hstep : (applyOp st (FsOp.writeChar path c)).files path = some (acc ++ [c]) := by
        simp [applyOp, hf]
      have hd : (applyOp st (FsOp.writeChar path c)).dirs = st.dirs := rfl
      have hrec := ih (applyOp st (FsOp.writeChar path c)) (acc ++ [c]) hstep
      simpa [applyOps, hd, List.append_assoc] using hrec

/-- **C8 (amended).** `save_auth` creates the containing directory and
then, uninterrupted, writes the serialized state over the auth file in
place: after the full trace the file holds exactly the new contents and
the directory has been created.  The overwrite is direct
(truncate-then-write, with no temp-and-replace step), so a crash mid-write
can leave the file holding neither the previous nor the new state, as the
counterexample shows. -/
theorem save_auth_mkdir_and_write_in_place (dir path : String)
    (serialized : List Char) (st : FsState) :
    (applyOps st (save_auth_ops dir path serialized)).files path = some serialized ∧
    dir ∈ (applyOps st (save_auth_ops dir path serialized)).dirs := by
  have h2 : (applyOp (applyOp st (FsOp.mkdirParents dir)) (FsOp.truncate path)).files path
      = some [] := by
    simp [applyOp]
  have h2d : (applyOp (applyOp st (FsOp.mkdirParents dir)) (FsOp.truncate path)).dirs
      = dir :: st.dirs := rfl
  have hrec := applyOps_writeChars path serialized
    (applyOp (applyOp st (FsOp.mkdirParents dir)) (FsOp.truncate path)) [] h2
  unfold save_auth_ops applyOps
  simp only [List.foldl_cons]
  refine ⟨by simpa [applyOps] using hrec.1, ?_⟩
  have := hrec.2
  rw [applyOps] at this
  rw [this, h2d]
  exact List.mem_cons_self _ _

/-- **C6 counterexample.** The sign-in response of `wC6` carries the
pending-credential handle nested inside the error-detail list
(`nestedDetail`, which also carries enrollment info for one factor), and
in `wC6` the MFA challenge would succeed were it attempted
(`_handle_firebase_mfa` returns a session); yet because the error message
(`"VERIFY"`) mentions neither MFA nor SECOND_FACTOR, `_firebase_login`
rejects the attempt outright and performs no challenge — refuting
"classified as MFARequired exactly when it carries a pending-credential
correlation handle either at the top level or nested inside an
error-detail list" at this input. -/
theorem mfa_detection_counterexample :
    wC6.signInResp = JSON.obj [("error", .obj
      [("message", .str "VERIFY"), ("errors", .arr [nestedDetail])])] ∧
    hasKey nestedDetail "mfaPendingCredential" = true ∧
    strHasSub (pyStr nestedDetail) "mfaPendingCredential" = true ∧
    truthy (jget nestedDetail "mfaInfo") = true ∧
    (_handle_firebase_mfa wC6 nestedDetail).1.isSome = true ∧
    _firebase_login wC6 = (none, [Effect.signInCall]) := by
  refine ⟨?_, ?_, ?_, ?_, ?_, ?_⟩ <;> decide

/-- **C6 (amended).** A signIn response is classified as MFARequired — the
MFA handler takes over — when it carries the pending-credential handle at
the top level, or when the error message mentions MFA or SECOND_FACTOR and
some entry of the error-detail list contains the pending-credential marker
in its textual form (the first such entry is handed to the handler); a
nested handle whose error message mentions neither is Rejected with no
challenge.  In the MFA case, if no enrollment info accompanies it the
outcome is Rejected (no challenge is started), and otherwise only the
first enrolled factor is used for the challenge. -/
theorem mfa_detection_policy (w : World) :
    (hasKey w.signInResp "mfaPendingCredential" = true →
      _firebase_login w
        = ((_handle_firebase_mfa w w.signInResp).1,
           Effect.signInCall :: (_handle_firebase_mfa w w.signInResp).2)) ∧
    (hasKey w.signInResp "mfaPendingCredential" = false →
      (hasKey w.signInResp "idToken" && truthy (jget w.signInResp "idToken")) = false →
      truthy (jget w.signInResp "error") = true →
      mentionsMFA (errMsg w.signInResp) = false →
      _firebase_login w = (none, [Effect.signInCall])) ∧
    (∀ d, hasKey w.signInResp "mfaPendingCredential" = false →
      (hasKey w.signInResp "idToken" && truthy (jget w.signInResp "idToken")) = false →
      truthy (jget w.signInResp "error") = true →
      mentionsMFA (errMsg w.signInResp) = true →
      (asList (((jget w.signInResp "error").getKey "errors").getD (.arr []))).find?
          (fun d0 => strHasSub (pyStr d0) "mfaPendingCredential") = some d →
      _firebase_login w
        = ((_handle_firebase_mfa w d).1,
           Effect.signInCall :: (_handle_firebase_mfa w d).2)) ∧
    (∀ r, truthy ((r.getKey "mfaInfo").getD (.arr [])) = false →
      _handle_firebase_mfa w r = (none, [])) ∧
    (∀ r m rest, (r.getKey "mfaInfo").getD (.arr []) = .arr (m :: rest) →
      ∃ tl, (_handle_firebase_mfa w r).2
          = Effect.mfaStartCall (asStr (jget r "mfaPendingCredential"))
              (asStr (jget m "mfaEnrollmentId")) :: tl ∧
        ∀ p e, Effect.mfaStartCall p e ∈ tl → False) := by
  refine ⟨?_, ?_, ?_, ?_, ?_⟩
  · intro h
    simp [_firebase_login, h]
  · intro h1 h2 h3 h4
    simp [_firebase_login, h1, h2, h3, h4]
  · intro d h1 h2 h3 h4 hfind
    simp [_firebase_login, h1, h2, h3, h4, hfind]
  · intro r hm
    simp [_handle_firebase_mfa, hm]
  · intro r m rest hm
    have hcond : (!truthy ((r.getKey "mfaInfo").getD (.arr []))) = false := by
      rw [hm]; rfl
    simp only [_handle_firebase_mfa, hcond, Bool.false_eq_true, if_false, hm, pyFirst]
    repeat' split
    all_goals
      first
        | exact ⟨_, rfl, by simp⟩
        | (exfalso; simp_all [truthy])

/-- Witness for the amended C6: in `wC6b` the error message mentions
SECOND_FACTOR, so the nested handle is found and the MFA handler takes
over. -/
theorem mfa_detection_policy_witness :
    _firebase_login wC6b
      = ((_handle_firebase_mfa wC6b nestedDetail).1,
         Effect.signInCall :: (_handle_firebase_mfa wC6b nestedDetail).2) :=
  (mfa_detection_policy wC6b).2.2.1 nestedDetail (by decide) (by decide) (by decide)
    (by decide) (by decide)
